import Mathlib

/-!
Verification of the dual-layout spatial morph engine of the christmas-tree
repository: a shallow embedding over the real numbers of the per-frame
polar blend algorithm, the damped morph clock, the layout generators and
the screen-space selection resolver, followed by theorems settling the
specification claims.
-/

namespace ChristmasTree

open scoped Classical

/-- A 3D point or vector, as used for chaos and tree layout coordinates. -/
structure Vec3 where
  x : ℝ
  y : ℝ
  z : ℝ

/-- Linear interpolation, as in the THREE.MathUtils.lerp helper used
throughout the frame loops. -/
noncomputable def lerp (x y t : ℝ) : ℝ := (1 - t) * x + t * y

/-- Exponential damping, as in the THREE.MathUtils.damp helper: lerp
toward the target by the factor 1 - exp(-lambda * dt). -/
noncomputable def damp (x y lambda dt : ℝ) : ℝ :=
  lerp x y (1 - Real.exp (-lambda * dt))

/-- The smoothstep-shaped ease transform applied to the damped progress in
both frame loops. -/
noncomputable def ease (p : ℝ) : ℝ := p * p * (3 - 2 * p)

/-- Two-argument arctangent, modelling Math.atan2 via the complex
argument: atan2 z x is the argument of the complex number x + z i.  In
particular atan2 0 0 = 0, matching the JavaScript convention. -/
noncomputable def atan2 (z x : ℝ) : ℝ := Complex.arg ⟨x, z⟩

/-- The vortex twist angular offset: (1 - ease) times the population
vortex strength. -/
noncomputable def vortexTwist (e V : ℝ) : ℝ := (1 - e) * V

/-- The polar blend algorithm applied per object per tick in the frame
loops: decompose the chaos point c and tree point t into cylindrical
coordinates, lerp height and radius, add the vortex twist and the
accumulated rotation to the tree azimuth, co-rotate the chaos azimuth by
rot * F, convert back to Cartesian and lerp chaos against target with the
eased progress e.  V is the population vortex strength and F its chaos
co-rotation factor. -/
noncomputable def polarBlend (c t : Vec3) (e rot V F : ℝ) : Vec3 :=
  let y := lerp c.y t.y e
  let tr := Real.sqrt (t.x * t.x + t.z * t.z)
  let tAngle := atan2 t.z t.x
  let cr := Real.sqrt (c.x * c.x + c.z * c.z)
  let r := lerp cr tr e
  let currentAngle := tAngle + vortexTwist e V + rot
  let formedX := r * Real.cos currentAngle
  let formedZ := r * Real.sin currentAngle
  let cAngle := atan2 c.z c.x
  let cRotatedX := cr * Real.cos (cAngle + rot * F)
  let cRotatedZ := cr * Real.sin (cAngle + rot * F)
  ⟨lerp cRotatedX formedX e, y, lerp cRotatedZ formedZ e⟩

/-- The tree-side target position described by the spec: height of t,
radius of t, azimuth of t plus the accumulated rotation angle. -/
noncomputable def treeTargetPos (t : Vec3) (rot : ℝ) : Vec3 :=
  let tr := Real.sqrt (t.x * t.x + t.z * t.z)
  let tAngle := atan2 t.z t.x
  ⟨tr * Real.cos (tAngle + rot), t.y, tr * Real.sin (tAngle + rot)⟩

/-- The rotated chaos-side position described by the spec: height of c,
radius of c, azimuth of c plus rot times the chaos co-rotation factor. -/
noncomputable def rotatedChaosPos (c : Vec3) (rot F : ℝ) : Vec3 :=
  let cr := Real.sqrt (c.x * c.x + c.z * c.z)
  let cAngle := atan2 c.z c.x
  ⟨cr * Real.cos (cAngle + rot * F), c.y, cr * Real.sin (cAngle + rot * F)⟩

lemma lerp_one (x y : ℝ) : lerp x y 1 = y := by
  simp [lerp]

lemma lerp_zero (x y : ℝ) : lerp x y 0 = x := by
  simp [lerp]

lemma lerp_self (x t : ℝ) : lerp x x t = x := by
  simp [lerp]; ring

lemma vortexTwist_one (V : ℝ) : vortexTwist 1 V = 0 := by
  simp [vortexTwist]

/-- At full formation the blend is the tree target. -/
lemma polarBlend_at_one (c t : Vec3) (rot V F : ℝ) :
    polarBlend c t 1 rot V F = treeTargetPos t rot := by
  simp only [polarBlend, treeTargetPos, lerp_one, vortexTwist_one]
  norm_num

/-- At zero formation the blend is the rotated chaos position. -/
lemma polarBlend_at_zero (c t : Vec3) (rot V F : ℝ) :
    polarBlend c t 0 rot V F = rotatedChaosPos c rot F := by
  simp only [polarBlend, rotatedChaosPos, lerp_zero]

/-- C1: for every chaos point, tree point and rotation angle, the polar
blend at ease one is exactly the tree-side target position with zero
vortex contribution, and at ease zero it is exactly the rotated
chaos-side position. -/
theorem C1_blend_endpoints (c t : Vec3) (rot V F : ℝ) :
    polarBlend c t 1 rot V F = treeTargetPos t rot ∧
    vortexTwist 1 V = 0 ∧
    polarBlend c t 0 rot V F = rotatedChaosPos c rot F :=
  ⟨polarBlend_at_one c t rot V F, vortexTwist_one V,
    polarBlend_at_zero c t rot V F⟩

/-- C2: the ease function is p * p * (3 - 2p); it has the stated boundary
values and is monotonically non-decreasing on the unit interval. -/
theorem C2_ease_properties :
    ease 0 = 0 ∧ ease 1 = 1 ∧ ease (1 / 2) = 1 / 2 ∧
    ∀ a b : ℝ, 0 ≤ a → a ≤ b → b ≤ 1 → ease a ≤ ease b := by
  refine ⟨by norm_num [ease], by norm_num [ease], by norm_num [ease], ?_⟩
  intro a b ha hab hb1
  simp only [ease]
  nlinarith [sq_nonneg (a + b - 1), sq_nonneg (a - b), mul_nonneg ha (sub_nonneg.2 hab),
    mul_nonneg (sub_nonneg.2 hab) (sub_nonneg.2 hb1)]

/-- Witness for C2 at the concrete pair 0 and one half. -/
theorem C2_ease_witness : ease 0 ≤ ease (1 / 2) :=
  C2_ease_properties.2.2.2 0 (1 / 2) (by norm_num) (by norm_num) (by norm_num)

lemma sqrt_mul_cos_atan2 (x z : ℝ) :
    Real.sqrt (x * x + z * z) * Real.cos (atan2 z x) = x := by
  have h := Complex.abs_mul_cos_arg ⟨x, z⟩
  rwa [Complex.abs_apply, Complex.normSq_mk] at h

lemma sqrt_mul_sin_atan2 (x z : ℝ) :
    Real.sqrt (x * x + z * z) * Real.sin (atan2 z x) = z := by
  have h := Complex.abs_mul_sin_arg ⟨x, z⟩
  rwa [Complex.abs_apply, Complex.normSq_mk] at h

/-- C6 (amended): a stored tree point fed to the blend as both chaos and
tree input at ease one is reproduced exactly when the accumulated
rotation angle is zero. -/
theorem C6_fixed_point (p : Vec3) (V F : ℝ) :
    polarBlend p p 1 0 V F = p := by
  rw [polarBlend_at_one]
  simp only [treeTargetPos, add_zero]
  exact congrArg₂ (fun a b => Vec3.mk a p.y b)
    (sqrt_mul_cos_atan2 p.x p.z) (sqrt_mul_sin_atan2 p.x p.z)

/-- Counterexample to C6 as stated: at the nonzero accumulated rotation
angle pi, the blend of the tree point (1,0,0) with itself at ease one
returns (-1,0,0), not the point itself. -/
theorem C6_counterexample :
    polarBlend ⟨1, 0, 0⟩ ⟨1, 0, 0⟩ 1 Real.pi 15 0.5 ≠ ⟨1, 0, 0⟩ := by
  rw [polarBlend_at_one]
  intro h
  have hx := congrArg Vec3.x h
  have harg : atan2 0 1 = 0 := by
    have h1 : (⟨1, 0⟩ : ℂ) = 1 := Complex.ext (by simp) (by simp)
    rw [atan2, h1, Complex.arg_one]
  simp only [treeTargetPos, harg, zero_add, Real.cos_pi] at hx
  norm_num at hx

/-- Vortex strength of the foliage particle population. -/
noncomputable def foliageVortexStrength : ℝ := 15.0

/-- Chaos co-rotation factor of the foliage particle population. -/
noncomputable def foliageCoRotation : ℝ := 0.5

/-- Vortex strength of the string-light population. -/
noncomputable def lightVortexStrength : ℝ := 12.0

/-- Chaos co-rotation factor of the string-light population. -/
noncomputable def lightCoRotation : ℝ := 0.3

/-- Vortex strength of the ornament population. -/
noncomputable def ornamentVortexStrength : ℝ := 12.0

/-- Chaos co-rotation factor of the ornament population. -/
noncomputable def ornamentCoRotation : ℝ := 0.15

/-- Vortex strength of the photo population. -/
noncomputable def photoVortexStrength : ℝ := 10.0

/-- Chaos co-rotation factor of the photo population. -/
noncomputable def photoCoRotation : ℝ := 0.2

/-- Counterexample to C7 as stated: the ornament vortex strength is not
strictly below the light vortex strength (both are 12.0), and the photo
co-rotation factor is not the smallest (ornaments use 0.15 < 0.2). -/
theorem C7_counterexample :
    ¬(ornamentVortexStrength < lightVortexStrength ∧
      photoCoRotation < ornamentCoRotation) := by
  norm_num [ornamentVortexStrength, lightVortexStrength,
    photoCoRotation, ornamentCoRotation]

/-- C7 (amended): the foliage population has the largest vortex strength,
lights and ornaments share the middle value 12.0, photos have the
smallest; the co-rotation factors are strictly ordered with foliage
largest, then lights, then photos, and ornaments smallest. -/
theorem C7_parameter_order :
    lightVortexStrength < foliageVortexStrength ∧
    ornamentVortexStrength = lightVortexStrength ∧
    photoVortexStrength < ornamentVortexStrength ∧
    lightCoRotation < foliageCoRotation ∧
    photoCoRotation < lightCoRotation ∧
    ornamentCoRotation < photoCoRotation := by
  norm_num [foliageVortexStrength, lightVortexStrength, ornamentVortexStrength,
    photoVortexStrength, foliageCoRotation, lightCoRotation, photoCoRotation,
    ornamentCoRotation]

/-- C8: when both the chaos point and the tree point have zero radius in
the horizontal plane, atan2 0 0 evaluates to 0 and for every ease and
rotation angle the blend still produces the well-defined finite position
with x and z zero and the lerped height. -/
theorem C8_zero_radius (c t : Vec3) (hcx : c.x = 0) (hcz : c.z = 0)
    (htx : t.x = 0) (htz : t.z = 0) (e rot V F : ℝ) :
    atan2 0 0 = 0 ∧
    polarBlend c t e rot V F = ⟨0, lerp c.y t.y e, 0⟩ := by
  constructor
  · have h0 : (⟨0, 0⟩ : ℂ) = 0 := Complex.ext (by simp) (by simp)
    rw [atan2, h0, Complex.arg_zero]
  · simp only [polarBlend, hcx, hcz, htx, htz]
    norm_num [lerp]

/-- Witness for C8 at a concrete degenerate pair of points. -/
theorem C8_zero_radius_witness :
    atan2 0 0 = 0 ∧
    polarBlend ⟨0, 5, 0⟩ ⟨0, -3, 0⟩ (1 / 2) 2 15 0.5 =
      ⟨0, lerp 5 (-3) (1 / 2), 0⟩ :=
  C8_zero_radius ⟨0, 5, 0⟩ ⟨0, -3, 0⟩ rfl rfl rfl rfl (1 / 2) 2 15 0.5

/-- One tick of the morph clock progress damping, with the damping rate
2.5 used by both frame loops. -/
noncomputable def progressAdvance (p target dt : ℝ) : ℝ := damp p target 2.5 dt

/-- Iterated progress damping over n ticks of constant deltaTime toward a
fixed target, starting from a given progress value. -/
noncomputable def advanceN (target dt : ℝ) : ℕ → ℝ → ℝ
  | 0, p => p
  | n + 1, p => progressAdvance (advanceN target dt n p) target dt

lemma damp_sub (x y lambda dt : ℝ) :
    damp x y lambda dt - y = Real.exp (-lambda * dt) * (x - y) := by
  simp only [damp, lerp]
  ring

lemma advanceN_sub_target (target dt p : ℝ) (n : ℕ) :
    advanceN target dt n p - target =
      (p - target) * Real.exp (-2.5 * dt) ^ n := by
  induction n with
  | zero => simp [advanceN]
  | succ n ih =>
      have h := damp_sub (advanceN target dt n p) target 2.5 dt
      calc advanceN target dt (n + 1) p - target
          = Real.exp (-2.5 * dt) * (advanceN target dt n p - target) := by
            simpa [advanceN, progressAdvance] using h
        _ = (p - target) * Real.exp (-2.5 * dt) ^ (n + 1) := by
            rw [ih]; ring

lemma exp_damp_factor_pos (dt : ℝ) : 0 < Real.exp (-2.5 * dt) :=
  Real.exp_pos _

lemma exp_damp_factor_lt_one (dt : ℝ) (hdt : 0 < dt) :
    Real.exp (-2.5 * dt) < 1 :=
  Real.exp_lt_one_iff.2 (by nlinarith)

lemma exp_pow_bound : (100 : ℝ) < Real.exp 2.5 ^ 5 := by
  have h1 : (3.5 : ℝ) ≤ Real.exp 2.5 := by
    have := Real.add_one_le_exp (2.5 : ℝ)
    linarith
  have h2 : (3.5 : ℝ) ^ 5 ≤ Real.exp 2.5 ^ 5 :=
    pow_le_pow_left₀ (by norm_num) h1 5
  nlinarith

lemma exp_neg_twelve_half_lt : Real.exp (-(12.5 : ℝ)) < 0.01 := by
  have h3 : Real.exp (12.5 : ℝ) = Real.exp 2.5 ^ 5 := by
    rw [← Real.exp_nat_mul]
    norm_num
  have h100 : (100 : ℝ) < Real.exp (12.5 : ℝ) := by
    rw [h3]; exact exp_pow_bound
  rw [Real.exp_neg]
  have := inv_strictAnti₀ (by norm_num : (0 : ℝ) < 100) h100
  calc (Real.exp (12.5 : ℝ))⁻¹ < (100 : ℝ)⁻¹ := this
    _ = 0.01 := by norm_num

/-- C3: with positive constant deltaTime the damped progress moves
strictly toward the target without passing it, stays put when already
there, converges to within 1e-4 of the target in a bounded number of
ticks, and in particular after 300 ticks of one sixtieth of a second
toward target 1 exceeds 0.99. -/
theorem C3_progress_damping (p target dt : ℝ) (hp0 : 0 ≤ p) (hp1 : p ≤ 1)
    (htgt : target = 0 ∨ target = 1) (hdt : 0 < dt) :
    (p < target →
      p < progressAdvance p target dt ∧ progressAdvance p target dt < target) ∧
    (target < p →
      target < progressAdvance p target dt ∧ progressAdvance p target dt < p) ∧
    (p = target → progressAdvance p target dt = p) ∧
    (∃ N : ℕ, ∀ n ≥ N, |advanceN target dt n p - target| < 1e-4) ∧
    (target = 1 → dt = 1 / 60 → 0.99 < advanceN target dt 300 p) := by
  have hE0 : 0 < Real.exp (-2.5 * dt) := exp_damp_factor_pos dt
  have hE1 : Real.exp (-2.5 * dt) < 1 := exp_damp_factor_lt_one dt hdt
  have hadv : progressAdvance p target dt =
      Real.exp (-2.5 * dt) * p + (1 - Real.exp (-2.5 * dt)) * target := by
    simp only [progressAdvance, damp, lerp]
    ring
  refine ⟨?_, ?_, ?_, ?_, ?_⟩
  · intro hlt
    constructor <;> nlinarith
  · intro hlt
    constructor <;> nlinarith
  · intro heq
    rw [hadv, heq]; ring
  · have htend : Filter.Tendsto
        (fun n : ℕ => |p - target| * Real.exp (-2.5 * dt) ^ n)
        Filter.atTop (nhds 0) := by
      have hpow := tendsto_pow_atTop_nhds_zero_of_lt_one hE0.le hE1
      simpa using hpow.const_mul |p - target|
    have hev := htend.eventually_lt_const (by norm_num : (0 : ℝ) < 1e-4)
    obtain ⟨N, hN⟩ := Filter.eventually_atTop.1 hev
    refine ⟨N, fun n hn => ?_⟩
    have habs : |advanceN target dt n p - target| =
        |p - target| * Real.exp (-2.5 * dt) ^ n := by
      rw [advanceN_sub_target, abs_mul, abs_of_nonneg (pow_nonneg hE0.le n)]
    rw [habs]
    exact hN n hn
  · intro ht1 hdt60
    subst ht1
    subst hdt60
    have hclosed := advanceN_sub_target 1 (1 / 60) p 300
    have hpow : Real.exp (-2.5 * (1 / 60 : ℝ)) ^ 300 = Real.exp (-(12.5 : ℝ)) := by
      rw [← Real.exp_nat_mul]
      norm_num
    have hsmall : Real.exp (-(12.5 : ℝ)) < 0.01 := exp_neg_twelve_half_lt
    have hpos : 0 < Real.exp (-(12.5 : ℝ)) := Real.exp_pos _
    rw [hpow] at hclosed
    nlinarith [hclosed]

/-- Witness for C3 at starting progress 0, target 1, deltaTime one
sixtieth of a second. -/
theorem C3_progress_damping_witness :
    0.99 < advanceN 1 (1 / 60) 300 0 :=
  (C3_progress_damping 0 1 (1 / 60) (by norm_num) (by norm_num)
    (Or.inr rfl) (by norm_num)).2.2.2.2 rfl rfl

/-- Tree layout of the foliage particle population: for each index a
random height in [0,14), a cone radius shrinking linearly with height and
an azimuth of three times the height plus a random full-turn offset.  The
random draws are supplied as the streams u and v. -/
noncomputable def foliageTreeLayout (count : ℕ) (u v : ℕ → ℝ) : List Vec3 :=
  (List.range count).map fun i =>
    let h := u i * 14
    let coneRadius := (14 - h) * 0.45
    let angle := h * 3.0 + v i * Real.pi * 2
    ⟨Real.cos angle * coneRadius, h - 6, Real.sin angle * coneRadius⟩

/-- Chaos layout of the foliage particle population: a uniform in-sphere
sample per index, supplied as the stream s. -/
def foliageChaosLayout (count : ℕ) (s : ℕ → Vec3) : List Vec3 :=
  (List.range count).map s

/-- Tree layout of the string-light population: an evenly pitched spiral
over normalized index t = i / count. -/
noncomputable def lightTreeLayout (count : ℕ) : List Vec3 :=
  (List.range count).map fun (i : ℕ) =>
    let t := (i : ℝ) / (count : ℝ)
    let h := t * 13
    let coneRadius := (14 - h) * 0.48
    let angle := t * Real.pi * 25
    ⟨Real.cos angle * coneRadius, h - 6, Real.sin angle * coneRadius⟩

/-- Chaos layout of the string-light population: an in-sphere sample per
index, supplied as the stream s. -/
def lightChaosLayout (count : ℕ) (s : ℕ → Vec3) : List Vec3 :=
  (List.range count).map s

/-- Tree position of photo i among count photos: a single evenly pitched
spiral with height linear in t = i / (count - 1), radius shrinking with
height and azimuth t times five full turns. -/
noncomputable def photoTreePos (count i : ℕ) : Vec3 :=
  let t := (i : ℝ) / ((count : ℝ) - 1)
  let h := t * 14 - 7
  let radius := (7 - (h + 7)) * 0.4 + 1.5
  let angle := t * Real.pi * 10
  ⟨Real.cos angle * radius, h, Real.sin angle * radius⟩

/-- Chaos position of photo i among count photos: a Fibonacci-lattice
point on a sphere of radius 12 plus a jitter rj in [0,1) times 4,
flattened along the second axis by the factor 0.6. -/
noncomputable def photoChaosPos (count i : ℕ) (rj : ℝ) : Vec3 :=
  let phi := Real.arccos (1 - 2 * ((i : ℝ) + 0.5) / (count : ℝ))
  let theta := Real.pi * (1 + Real.sqrt 5) * ((i : ℝ) + 0.5)
  let r := 12 + rj * 4
  ⟨r * Real.sin phi * Real.cos theta, r * Real.sin phi * Real.sin theta * 0.6,
    r * Real.cos phi⟩

/-- Tree layout of the photo population. -/
noncomputable def photoTreeLayout (count : ℕ) : List Vec3 :=
  (List.range count).map (photoTreePos count)

/-- Chaos layout of the photo population, with the per-photo radius
jitter supplied as the stream rj. -/
noncomputable def photoChaosLayout (count : ℕ) (rj : ℕ → ℝ) : List Vec3 :=
  (List.range count).map fun i => photoChaosPos count i (rj i)

/-- Per-population morph state: the two immutable layouts, the damped
progress, the accumulated rotation angle and the per-tick output
positions buffer. -/
structure PopState where
  chaosLayout : List Vec3
  treeLayout : List Vec3
  progress : ℝ
  rotation : ℝ
  positions : List Vec3

/-- One frame tick for a population, as in the useFrame loops: damp the
progress toward the target at rate 2.5, accumulate the rotation angle,
recompute the eased progress and write the blended position of every
object into the positions buffer.  The layouts pass through untouched. -/
noncomputable def frameTick (target dt rotRate V F : ℝ) (st : PopState) :
    PopState :=
  let progress := damp st.progress target 2.5 dt
  let rotation := st.rotation + rotRate * dt
  let e := ease progress
  { chaosLayout := st.chaosLayout
    treeLayout := st.treeLayout
    progress := progress
    rotation := rotation
    positions :=
      List.zipWith (fun c t => polarBlend c t e rotation V F)
        st.chaosLayout st.treeLayout }

/-- n frame ticks in sequence with constant external inputs. -/
noncomputable def frameTickN (target dt rotRate V F : ℝ) :
    ℕ → PopState → PopState
  | 0, st => st
  | n + 1, st =>
      frameTickN target dt rotRate V F n (frameTick target dt rotRate V F st)

lemma frameTickN_layouts (target dt rotRate V F : ℝ) (n : ℕ) (st : PopState) :
    (frameTickN target dt rotRate V F n st).chaosLayout = st.chaosLayout ∧
    (frameTickN target dt rotRate V F n st).treeLayout = st.treeLayout := by
  induction n generalizing st with
  | zero => exact ⟨rfl, rfl⟩
  | succ n ih =>
      have h := ih (frameTick target dt rotRate V F st)
      simpa [frameTickN, frameTick] using h

/-- C9: for every population the generated chaos and tree layouts have
length equal to the population count, and the per-tick frame update never
writes to either layout: after any number of ticks both layouts equal
their contents at generation. -/
theorem C9_layout_invariants (count : ℕ) (u v rj : ℕ → ℝ) (s : ℕ → Vec3) :
    (foliageChaosLayout count s).length = count ∧
    (foliageTreeLayout count u v).length = count ∧
    (lightChaosLayout count s).length = count ∧
    (lightTreeLayout count).length = count ∧
    (photoChaosLayout count rj).length = count ∧
    (photoTreeLayout count).length = count ∧
    ∀ (target dt rotRate V F : ℝ) (n : ℕ) (st : PopState),
      (frameTickN target dt rotRate V F n st).chaosLayout = st.chaosLayout ∧
      (frameTickN target dt rotRate V F n st).treeLayout = st.treeLayout := by
  refine ⟨?_, ?_, ?_, ?_, ?_, ?_, ?_⟩
  · simp only [foliageChaosLayout, List.length_map, List.length_range]
  · simp only [foliageTreeLayout, List.length_map, List.length_range]
  · simp only [lightChaosLayout, List.length_map, List.length_range]
  · simp only [lightTreeLayout, List.length_map, List.length_range]
  · simp only [photoChaosLayout, List.length_map, List.length_range]
  · simp only [photoTreeLayout, List.length_map, List.length_range]
  · intro target dt rotRate V F n st
    exact frameTickN_layouts target dt rotRate V F n st

/-- The external application mode read by the selection logic. -/
inductive Mode where
  | CHAOS : Mode
  | FORMED : Mode

/-- A photo panel for selection purposes: its identity and its current
world position. -/
structure Panel where
  id : String
  pos : Vec3

/-- The externally visible selection state: the active identity, if any,
and the timestamp at which it was activated. -/
structure SelState where
  selected : Option String
  openedAt : ℤ

/-- Conversion of the pointer from screen-fraction coordinates to
normalized device coordinates. -/
noncomputable def ndcOf (pt : ℝ × ℝ) : ℝ × ℝ :=
  (pt.1 * 2 - 1, -(pt.2 * 2) + 1)

/-- Euclidean distance in normalized device coordinates between a
projected panel position and the pointer, as computed with Math.hypot. -/
noncomputable def screenDist (sp : Vec3) (n : ℝ × ℝ) : ℝ :=
  Real.sqrt ((sp.x - n.1) ^ 2 + (sp.y - n.2) ^ 2)

/-- One step of the nearest-panel scan: if the projected panel is in
front of the camera and its pointer distance is below the threshold 0.05
and below the running minimum, it becomes the new candidate. -/
noncomputable def scanStep (project : Vec3 → Vec3) (n : ℝ × ℝ)
    (acc : Option (ℝ × String)) (obj : Panel) : Option (ℝ × String) :=
  let sp := project obj.pos
  if sp.z < 1 then
    let d := screenDist sp n
    if d < 0.05 ∧ acc.elim True (fun pr => d < pr.1) then some (d, obj.id)
    else acc
  else acc

/-- The nearest-panel scan over all photo panels, starting from the empty
candidate (running minimum distance infinity). -/
noncomputable def closestScan (project : Vec3 → Vec3) (n : ℝ × ℝ)
    (panels : List Panel) : Option (ℝ × String) :=
  panels.foldl (scanStep project n) none

/-- The click-trigger handler: only in the chaotic mode and with a
pointer present does it run; an active selection younger than 3000 ms
swallows the trigger; otherwise the nearest-panel scan either toggles the
same identity off, activates a new identity with a fresh timestamp, or,
over empty space, clears an active selection. -/
noncomputable def selectionStep (mode : Mode) (pointer : Option (ℝ × ℝ))
    (project : Vec3 → Vec3) (panels : List Panel) (now : ℤ) (s : SelState) :
    SelState :=
  match mode, pointer with
  | Mode.CHAOS, some pt =>
      if s.selected.isSome ∧ now - s.openedAt < 3000 then s
      else
        match closestScan project (ndcOf pt) panels with
        | some (_, idq) =>
            if s.selected = some idq then
              if 3000 < now - s.openedAt then ⟨none, s.openedAt⟩ else s
            else ⟨some idq, now⟩
        | none =>
            if s.selected.isSome then
              if 3000 < now - s.openedAt then ⟨none, s.openedAt⟩ else s
            else s
  | _, _ => s

lemma scanStep_eq (project : Vec3 → Vec3) (n : ℝ × ℝ)
    (acc : Option (ℝ × String)) (obj : Panel) :
    scanStep project n acc obj =
      if (project obj.pos).z < 1 ∧ screenDist (project obj.pos) n < 0.05 ∧
          acc.elim True (fun pr => screenDist (project obj.pos) n < pr.1)
      then some (screenDist (project obj.pos) n, obj.id) else acc := by
  by_cases hz : (project obj.pos).z < 1
  · by_cases hc : screenDist (project obj.pos) n < 0.05 ∧
        acc.elim True (fun pr => screenDist (project obj.pos) n < pr.1)
    · simp [scanStep, hz, hc]
    · simp [scanStep, hz, hc]
  · simp [scanStep, hz]

lemma scan_mono (project : Vec3 → Vec3) (n : ℝ × ℝ) :
    ∀ (l : List Panel) (m : ℝ) (sid : String),
      ∃ d idq, l.foldl (scanStep project n) (some (m, sid)) = some (d, idq) ∧
        d ≤ m := by
  intro l
  induction l with
  | nil => intro m sid; exact ⟨m, sid, rfl, le_refl m⟩
  | cons hd tl ih =>
      intro m sid
      rw [List.foldl_cons, scanStep_eq]
      split_ifs with hcond
      · obtain ⟨d, idq, heq, hle⟩ := ih (screenDist (project hd.pos) n) hd.id
        exact ⟨d, idq, heq, le_trans hle (le_of_lt hcond.2.2)⟩
      · exact ih m sid

lemma scan_sound (project : Vec3 → Vec3) (n : ℝ × ℝ) :
    ∀ (l : List Panel) (acc : Option (ℝ × String)) (d : ℝ) (idq : String),
      l.foldl (scanStep project n) acc = some (d, idq) →
      acc = some (d, idq) ∨
        (d < 0.05 ∧ ∃ p ∈ l, p.id = idq ∧ (project p.pos).z < 1 ∧
          screenDist (project p.pos) n = d) := by
  intro l
  induction l with
  | nil => intro acc d idq h; exact Or.inl h
  | cons hd tl ih =>
      intro acc d idq h
      rw [List.foldl_cons] at h
      rcases ih _ d idq h with hacc | ⟨h05, p, hp, hid, hz, hdist⟩
      · rw [scanStep_eq] at hacc
        split_ifs at hacc with hcond
        · obtain ⟨heq1, heq2⟩ : screenDist (project hd.pos) n = d ∧ hd.id = idq := by
            simpa using hacc
          exact Or.inr ⟨heq1 ▸ hcond.2.1, hd, List.mem_cons_self _ _, heq2,
            hcond.1, heq1⟩
        · exact Or.inl hacc
      · exact Or.inr ⟨h05, p, List.mem_cons_of_mem _ hp, hid, hz, hdist⟩

lemma scan_min (project : Vec3 → Vec3) (n : ℝ × ℝ) :
    ∀ (l : List Panel) (acc : Option (ℝ × String)) (d : ℝ) (idq : String),
      l.foldl (scanStep project n) acc = some (d, idq) →
      ∀ q ∈ l, (project q.pos).z < 1 → screenDist (project q.pos) n < 0.05 →
        d ≤ screenDist (project q.pos) n := by
  intro l
  induction l with
  | nil => intro acc d idq _ q hq; exact absurd hq (List.not_mem_nil q)
  | cons hd tl ih =>
      intro acc d idq h q hq hz h05
      rw [List.foldl_cons] at h
      rcases List.mem_cons.1 hq with rfl | hqt
      · rw [scanStep_eq] at h
        split_ifs at h with hcond
        · obtain ⟨d', idq', heq, hle⟩ :=
            scan_mono project n tl (screenDist (project q.pos) n) q.id
          have hinj : d' = d ∧ idq' = idq := by
            have := heq.symm.trans h
            simpa using this
          exact hinj.1 ▸ hle
        · cases hacc : acc with
          | none =>
              rw [hacc] at hcond
              exact absurd ⟨hz, h05, trivial⟩ hcond
          | some pr =>
              rw [hacc] at hcond h
              have hm : pr.1 ≤ screenDist (project q.pos) n := by
                by_contra hlt
                exact hcond ⟨hz, h05, lt_of_not_le hlt⟩
              obtain ⟨d', idq', heq, hle⟩ := scan_mono project n tl pr.1 pr.2
              have hinj : d' = d ∧ idq' = idq := by
                have := heq.symm.trans h
                simpa using this
              exact le_trans (hinj.1 ▸ hle) hm
      · exact ih _ d idq h q hqt hz h05

lemma scan_none (project : Vec3 → Vec3) (n : ℝ × ℝ) :
    ∀ (l : List Panel) (acc : Option (ℝ × String)),
      (∀ q ∈ l, (project q.pos).z < 1 → 0.05 ≤ screenDist (project q.pos) n) →
      l.foldl (scanStep project n) acc = acc := by
  intro l
  induction l with
  | nil => intro acc _; rfl
  | cons hd tl ih =>
      intro acc hall
      rw [List.foldl_cons, scanStep_eq]
      split_ifs with hcond
      · exact absurd hcond.2.1
          (not_lt.2 (hall hd (List.mem_cons_self _ _) hcond.1))
      · exact ih acc fun q hq => hall q (List.mem_cons_of_mem _ hq)

/-- C4: with no active selection, in the chaotic mode with a pointer
present, a trigger activates the identity returned by the nearest-panel
scan and records the timestamp; the returned panel is in front of the
camera, within the threshold 0.05, and no in-front panel is closer; if
the scan finds nothing, or every in-front panel is at least 0.05 away,
the selection stays empty; and in the formed mode the trigger changes
nothing. -/
theorem C4_idle_selection (pt : ℝ × ℝ) (project : Vec3 → Vec3)
    (panels : List Panel) (now : ℤ) (s : SelState)
    (hsel : s.selected = none) :
    (∀ (d : ℝ) (idp : String),
      closestScan project (ndcOf pt) panels = some (d, idp) →
      selectionStep Mode.CHAOS (some pt) project panels now s =
        ⟨some idp, now⟩ ∧
      d < 0.05 ∧
      (∃ p ∈ panels, p.id = idp ∧ (project p.pos).z < 1 ∧
        screenDist (project p.pos) (ndcOf pt) = d) ∧
      (∀ q ∈ panels, (project q.pos).z < 1 →
        d ≤ screenDist (project q.pos) (ndcOf pt))) ∧
    (closestScan project (ndcOf pt) panels = none →
      selectionStep Mode.CHAOS (some pt) project panels now s = s) ∧
    ((∀ q ∈ panels, (project q.pos).z < 1 →
        0.05 ≤ screenDist (project q.pos) (ndcOf pt)) →
      selectionStep Mode.CHAOS (some pt) project panels now s = s) ∧
    (∀ pointer : Option (ℝ × ℝ),
      selectionStep Mode.FORMED pointer project panels now s = s) := by
  refine ⟨?_, ?_, ?_, ?_⟩
  · intro d idp hscan
    have hsound := scan_sound project (ndcOf pt) panels none d idp hscan
    rcases hsound with hbad | ⟨h05, hwit⟩
    · exact absurd hbad (by simp)
    refine ⟨?_, h05, hwit, ?_⟩
    · simp [selectionStep, hsel, hscan]
    · intro q hq hz
      by_cases hd : screenDist (project q.pos) (ndcOf pt) < 0.05
      · exact scan_min project (ndcOf pt) panels none d idp hscan q hq hz hd
      · exact le_trans (le_of_lt h05) (not_lt.1 hd)
  · intro hscan
    simp [selectionStep, hsel, hscan]
  · intro hall
    have hscan : closestScan project (ndcOf pt) panels = none :=
      scan_none project (ndcOf pt) panels none hall
    simp [selectionStep, hsel, hscan]
  · intro pointer
    cases pointer <;> rfl

/-- Witness for C4: a single panel at the origin under an identity
projection, with the pointer at the screen center, gets selected and the
timestamp recorded. -/
theorem C4_idle_selection_witness :
    selectionStep Mode.CHAOS (some (1 / 2, 1 / 2)) (fun w => w)
      [⟨"a", ⟨0, 0, 0⟩⟩] 5 ⟨none, 0⟩ = ⟨some "a", 5⟩ := by
  have hscan : closestScan (fun w => w) (ndcOf (1 / 2, 1 / 2))
      [⟨"a", ⟨0, 0, 0⟩⟩] = some (0, "a") := by
    norm_num [closestScan, scanStep, screenDist, ndcOf]
  exact ((C4_idle_selection (1 / 2, 1 / 2) (fun w => w) [⟨"a", ⟨0, 0, 0⟩⟩]
    5 ⟨none, 0⟩ rfl).1 0 "a" hscan).1

/-- C5: a trigger less than 3000 ms after activation leaves selection and
timestamp unchanged; after the lock has expired, a scan hitting the
active identity clears the selection, a scan hitting a different identity
activates it with a refreshed timestamp, and a scan over empty space
clears the selection. -/
theorem C5_active_lock (pt : ℝ × ℝ) (project : Vec3 → Vec3)
    (panels : List Panel) (now : ℤ) (s : SelState) (idp : String)
    (hsel : s.selected = some idp) :
    (now - s.openedAt < 3000 →
      selectionStep Mode.CHAOS (some pt) project panels now s = s) ∧
    (3000 < now - s.openedAt →
      (∀ d : ℝ, closestScan project (ndcOf pt) panels = some (d, idp) →
        selectionStep Mode.CHAOS (some pt) project panels now s =
          ⟨none, s.openedAt⟩) ∧
      (∀ (d : ℝ) (idq : String), idq ≠ idp →
        closestScan project (ndcOf pt) panels = some (d, idq) →
        selectionStep Mode.CHAOS (some pt) project panels now s =
          ⟨some idq, now⟩) ∧
      (closestScan project (ndcOf pt) panels = none →
        selectionStep Mode.CHAOS (some pt) project panels now s =
          ⟨none, s.openedAt⟩)) := by
  constructor
  · intro hlock
    simp [selectionStep, hsel, hlock]
  · intro hafter
    have hnl : ¬(now - s.openedAt < 3000) := not_lt.2 (le_of_lt hafter)
    refine ⟨?_, ?_, ?_⟩
    · intro d hscan
      simp [selectionStep, hsel, hnl, hscan, hafter]
    · intro d idq hne hscan
      simp [selectionStep, hsel, hnl, hscan, hafter, hne.symm]
    · intro hscan
      simp [selectionStep, hsel, hnl, hscan, hafter]

/-- Witness for C5: with an active selection 100 ms old, a trigger is
swallowed and the state unchanged. -/
theorem C5_active_lock_witness :
    selectionStep Mode.CHAOS (some (0, 0)) (fun w => w) [] 100
      ⟨some "a", 0⟩ = ⟨some "a", 0⟩ :=
  (C5_active_lock (0, 0) (fun w => w) [] 100 ⟨some "a", 0⟩ "a" rfl).1
    (by norm_num)

/-- C10: when the pointer input is absent, a trigger leaves the selection
state completely unchanged in every mode. -/
theorem C10_absent_pointer (mode : Mode) (project : Vec3 → Vec3)
    (panels : List Panel) (now : ℤ) (s : SelState) :
    selectionStep mode none project panels now s = s := by
  cases mode <;> rfl

end ChristmasTree
